import Mathlib

/-!
Verification development for the go-env library (package `env`).

The definitions below are a shallow embedding, translated from the Go
sources of the repository:

* `VarName`, `isCamelCase`, `splitCamelCase` — the environment-variable
  name derivation of bind.go.  The two regular expressions used by
  `splitCamelCase` (`[A-Z]+([A-Z])[0-9]*[a-z]` and `[a-z][0-9_]*([A-Z])`)
  and the two used by `isCamelCase` are embedded directly as leftmost-match
  scanners over the character list; character classes are the ASCII classes
  of the regexps.
* a model of the reflection-driven `Dump` (dump.go) and `Bind`
  (bind.go) traversals over a universe of Go values.

Strings are processed as their character lists; all characters appearing
in the claims are ASCII, and the character classes `[a-z]`, `[A-Z]`,
`[0-9]`, `_` of the Go regexps are ASCII classes.
-/

namespace GoEnv

/-- ASCII `[A-Z]` (the regexp class used in bind.go). -/
def isUp (c : Char) : Bool := 'A' ≤ c && c ≤ 'Z'

/-- ASCII `[a-z]`. -/
def isLo (c : Char) : Bool := 'a' ≤ c && c ≤ 'z'

/-- ASCII `[0-9]`. -/
def isDig (c : Char) : Bool := '0' ≤ c && c ≤ '9'

/-- the class `[0-9_]` used by `isCamelCase` and the second split regexp. -/
def isDigU (c : Char) : Bool := isDig c || c = '_'

/-- drop a maximal (greedy) run of `[0-9]`. -/
def skipDig : List Char → List Char
  | [] => []
  | c :: cs => if isDig c then skipDig cs else c :: cs

/-- drop a maximal (greedy) run of `[0-9_]`. -/
def skipDigU : List Char → List Char
  | [] => []
  | c :: cs => if isDigU c then skipDigU cs else c :: cs

/-- length of the maximal (greedy) run of `[0-9_]`. -/
def countDigU : List Char → Nat
  | [] => 0
  | c :: cs => if isDigU c then countDigU cs + 1 else 0

/-- drop a maximal (greedy) run of `[A-Z]`. -/
def skipUp : List Char → List Char
  | [] => []
  | c :: cs => if isUp c then skipUp cs else c :: cs

/-- length of the maximal (greedy) run of `[A-Z]`. -/
def countUp : List Char → Nat
  | [] => 0
  | c :: cs => if isUp c then countUp cs + 1 else 0

/-- does the list start with `[a-z]`? -/
def headLo : List Char → Bool
  | [] => false
  | c :: _ => isLo c

/-- does the list start with `[A-Z]`? -/
def headUp : List Char → Bool
  | [] => false
  | c :: _ => isUp c

/-- Go `regexp.MatchString(".*[a-z]+[0-9_]*[A-Z]+.*", s)`: the string
contains a lowercase letter followed by `[0-9_]*` and an uppercase
letter.  (Taking the last letter of the `[a-z]+` run, a match exists
iff some lowercase letter is followed, through a run of `[0-9_]`, by an
uppercase letter.) -/
def camel1 : List Char → Bool
  | [] => false
  | c :: cs => (isLo c && headUp (skipDigU cs)) || camel1 cs

/-- Go `regexp.MatchString("[A-Z][A-Z][A-Z]+[0-9_]*[a-z]+.*", s)`: the
string contains three-or-more consecutive uppercase letters followed,
through `[0-9_]*`, by a lowercase letter. -/
def camel2 : List Char → Bool
  | [] => false
  | [_] => false
  | [_, _] => false
  | c1 :: c2 :: c3 :: cs =>
    (isUp c1 && isUp c2 && isUp c3 && headLo (skipDigU (skipUp cs))) ||
      camel2 (c2 :: c3 :: cs)

/-- bind.go `isCamelCase`. -/
def isCamelCase (s : String) : Bool :=
  camel1 s.data || camel2 s.data

/-- Leftmost match of `[A-Z]+([A-Z])[0-9]*[a-z]` (the first regexp of
`splitCamelCase`), returning the index of the capture group, i.e. the
index of the last uppercase letter of the run.  A match starting at a
position requires at least two consecutive uppercase letters there,
whose maximal run is followed, through a greedy `[0-9]*` run, by a
lowercase letter; the group index is then position + run length - 1. -/
def findSplit1 : List Char → Option Nat
  | [] => none
  | c :: cs =>
    if isUp c && 0 < countUp cs && headLo (skipDig ((c :: cs).drop (countUp cs + 1))) then
      some (countUp cs)
    else
      (findSplit1 cs).map (· + 1)

/-- Leftmost match of `[a-z][0-9_]*([A-Z])` (the second regexp of
`splitCamelCase`), returning the index of the capture group (the
uppercase letter). -/
def findSplit2 : List Char → Option Nat
  | [] => none
  | c :: cs =>
    if isLo c && headUp (skipDigU cs) then
      some (countDigU cs + 1)
    else
      (findSplit2 cs).map (· + 1)

/-- The first loop of `splitCamelCase`: repeatedly cut the input at the
leftmost match of `[A-Z]+([A-Z])[0-9]*[a-z]`, at the index of the
capture group.  Returns the emitted words and the remaining tail.
Every cut removes at least one character (the matched run has length at
least two, so the group index is at least 1), so the loop performs at
most `cs.length` iterations; the structural `fuel` argument is called
with that bound and is never exhausted. -/
def loop1 : Nat → List Char → List (List Char) × List Char
  | 0, cs => ([], cs)
  | fuel + 1, cs =>
    match findSplit1 cs with
    | some i =>
      let p := loop1 fuel (cs.drop i)
      (cs.take i :: p.1, p.2)
    | none => ([], cs)

/-- The second loop of `splitCamelCase`, over the tail left by the
first: repeatedly cut at the leftmost match of `[a-z][0-9_]*([A-Z])`.
As for `loop1`, every cut removes at least one character. -/
def loop2 : Nat → List Char → List (List Char) × List Char
  | 0, cs => ([], cs)
  | fuel + 1, cs =>
    match findSplit2 cs with
    | some i =>
      let p := loop2 fuel (cs.drop i)
      (cs.take i :: p.1, p.2)
    | none => ([], cs)

/-- `strings.Join(words, "_")` at the character-list level. -/
def joinUnderscore : List (List Char) → List Char
  | [] => []
  | [w] => w
  | w :: ws => w ++ '_' :: joinUnderscore ws

/-- `strings.ToUpper` at the character-list level (ASCII model). -/
def upperL (cs : List Char) : List Char := cs.map Char.toUpper

/-- bind.go `splitCamelCase`: run the two split loops in sequence,
append the non-empty remainder as a final word, join the words with `_`
and upper-case the result. -/
def splitCamelCase (s : String) : String :=
  let p1 := loop1 s.data.length s.data
  let p2 := loop2 p1.2.length p1.2
  let words := p1.1 ++ p2.1 ++ (if p2.2.isEmpty then [] else [p2.2])
  if words.isEmpty then ""
  else String.mk (upperL (joinUnderscore words))

/-- bind.go `VarName`: simple identifiers are upper-cased whole,
camel-case identifiers are split. -/
def VarName (s : String) : String :=
  if isCamelCase s then splitCamelCase s else String.mk (upperL s.data)

/-- is the optional previous character an uppercase letter? -/
def isUpO : Option Char → Bool
  | some c => isUp c
  | none => false

/-- tracks whether the suffix of consumed characters matches
`[a-z][0-9_]*`: true directly after a lowercase letter, preserved
through digits and underscores, cleared by anything else. -/
def nextLcd (c : Char) (lcd : Bool) : Bool :=
  if isLo c then true else if isDigU c then lcd else false

/-- Word splitter following the claim's wording (not the source): the
identifier is split before an uppercase letter when (a) the preceding
characters end in a lowercase letter optionally followed by
digits/underscores (a lowercase-to-uppercase transition), or (b) the
uppercase letter ends a run of three or more uppercase letters and is
immediately followed by a lowercase letter (acronym boundary: the split
falls before the last uppercase letter of the run).  `p2`/`p1` are the
two previously consumed characters and `acc` the current word. -/
def specSplitGo (p2 p1 : Option Char) (lcd : Bool) : List Char → List Char → List (List Char)
  | [], acc => if acc.isEmpty then [] else [acc]
  | c :: rest, acc =>
    let boundary := isUp c && (lcd || (isUpO p2 && isUpO p1 && headLo rest))
    if boundary && !acc.isEmpty then
      acc :: specSplitGo p1 (some c) (nextLcd c lcd) rest [c]
    else
      specSplitGo p1 (some c) (nextLcd c lcd) rest (acc ++ [c])

/-- The name derivation described by the claim: split at every
lowercase-to-uppercase transition and at every acronym boundary, join
with `_`, upper-case. -/
def specVarName (s : String) : String :=
  String.mk (upperL (joinUnderscore (specSplitGo none none false s.data [])))

/-- C1, counterexample.  The claim says `VarName` splits a digit-free
camel-case identifier at *every* lowercase-to-uppercase transition and
at every 3+-caps acronym boundary.  On `"loginURLEncoding"` that rule
yields `"LOGIN_URL_ENCODING"`, but `VarName` yields
`"LOGINURL_ENCODING"`: the first pass of `splitCamelCase` cuts at the
acronym boundary and emits everything before it (`loginURL`) as a
single word, so the earlier `n`→`U` transition is never split. -/
theorem claim_C1_counterexample :
    VarName "loginURLEncoding" = "LOGINURL_ENCODING" ∧
    specVarName "loginURLEncoding" = "LOGIN_URL_ENCODING" ∧
    VarName "loginURLEncoding" ≠ specVarName "loginURLEncoding" := by decide

/-- C1, amended.  `VarName` agrees with the claim's splitting rule on
all six listed identifiers — `VarName "LastName" = "LAST_NAME"`,
`VarName "URLEncoding" = "URL_ENCODING"`, `VarName "SSLPort" =
"SSL_PORT"`, `VarName "loginURL" = "LOGIN_URL"`, `VarName "my2B" =
"MY2_B"`, `VarName "B2B" = "B2B"` — but not on every digit-free
camel-case identifier: acronym boundaries are split first and keep all
preceding characters in one word, so only lowercase-to-uppercase
transitions after the last acronym boundary are split. -/
theorem claim_C1 :
    (VarName "LastName" = "LAST_NAME" ∧ specVarName "LastName" = "LAST_NAME") ∧
    (VarName "URLEncoding" = "URL_ENCODING" ∧ specVarName "URLEncoding" = "URL_ENCODING") ∧
    (VarName "SSLPort" = "SSL_PORT" ∧ specVarName "SSLPort" = "SSL_PORT") ∧
    (VarName "loginURL" = "LOGIN_URL" ∧ specVarName "loginURL" = "LOGIN_URL") ∧
    (VarName "my2B" = "MY2_B" ∧ specVarName "my2B" = "MY2_B") ∧
    (VarName "B2B" = "B2B" ∧ specVarName "B2B" = "B2B") := by decide

/-! ### A model of the Go values traversed by Dump and Bind

Dump (dump.go) and Bind (bind.go) walk a struct's fields by
reflection.  The value universe below covers the shapes those walks
dispatch on: the scalar kinds of `kindParsers` (booleans, strings, the
signed and unsigned integer widths), `time.Duration` (a
`typeParsers`/`fmt.Stringer` type of kind `Int64`), a custom
`encoding.TextMarshaler`/`TextUnmarshaler` type, an unsupported map
type, pointers, slices and structs.  The Go `int` and `uint` kinds are
parsed with bit size 32 (see `kindParsers`) and are represented by
width `i32`.  Floating-point kinds and `url.URL` are outside the
model. -/

/-- integer bit widths of the `kindParsers` table. -/
inductive IW
  | i8
  | i16
  | i32
  | i64
deriving DecidableEq

/-- bit size passed to `strconv.ParseInt`/`ParseUint`. -/
def bits : IW → Nat
  | .i8 => 8
  | .i16 => 16
  | .i32 => 32
  | .i64 => 64

/-- Leaf field types, used for typed nil pointers and as slice element
types.  `tmap tyName` stands for an unsupported map type whose
`reflect.Type.String()` is `tyName` (e.g. `"map[string]string"`). -/
inductive Ty
  | tstr
  | tbool
  | tint (w : IW)
  | tuint (w : IW)
  | tdur
  | tmap (tyName : String)
deriving DecidableEq

mutual
/-- A Go value as seen by the reflection walks.  `vtext r` is a value
of a custom type implementing `encoding.TextMarshaler` and
`encoding.TextUnmarshaler` (such as `badMarshaller` in the tests);
`r` is the result of its `MarshalText`.  `vptrN τ` is a typed nil
pointer with leaf pointee type `τ`; `vptrS v` a non-nil pointer to
`v`.  In `vslice ep τ xs`, `ep` records whether the static element
type is a pointer type (`[]*T`), `τ` the leaf element type and
`xs = none` a nil slice.  In `vstruct anon fs`, `anon` is true for a
field of anonymous struct type (`Type().Name() == ""`). -/
inductive Value
  | vstr (s : String)
  | vbool (b : Bool)
  | vint (w : IW) (n : Int)
  | vuint (w : IW) (n : Nat)
  | vdur (n : Int)
  | vtext (r : Except String String)
  | vmapV (tyName : String)
  | vptrN (τ : Ty)
  | vptrS (v : Value)
  | vslice (ep : Bool) (τ : Ty) (xs : Option Elems)
  | vstruct (anon : Bool) (fs : Fields)

/-- The field list of a struct: field name, `env` tag (empty string =
no tag) and current value, in declaration order. -/
inductive Fields
  | fnil
  | fcons (name : String) (tag : String) (v : Value) (rest : Fields)

/-- The element list of a non-nil slice. -/
inductive Elems
  | enil
  | econs (v : Value) (rest : Elems)
end

/-- Errors of the model, mirroring bind.go and dump.go:
`ErrNotStruct`, `ErrNotStructPtr`, `ErrUnsupported` (which names the
offending type), a custom marshaller's own error, `strconv` syntax and
range errors, `time.ParseDuration` errors, and the internal
`unknownType` sentinel of dump.go's `toString`. -/
inductive Err
  | notStruct
  | notStructPtr
  | unsupported (tyName : String)
  | marshal (msg : String)
  | badNum (s : String)
  | outOfRange (s : String)
  | badDur (s : String)
  | unknownType
deriving DecidableEq

/-- Whether a field is exported / settable.  dump.go skips a field
when its name's first byte equals its lower-cased self, and
`reflect.Value.CanSet` requires an exported (upper-case-initial) name;
for ASCII names both conditions are "the first character is an
uppercase letter". -/
def isExported (s : String) : Bool := headUp s.data

/-- `strconv.FormatInt(n, 10)`. -/
def formatInt (n : Int) : String :=
  if n < 0 then "-" ++ Nat.repr n.natAbs else Nat.repr n.natAbs

/-- digits of `u % 10^prec`, left-padded with zeros to length `prec`. -/
def padZeros (s : List Char) (n : Nat) : List Char :=
  List.replicate (n - s.length) '0' ++ s

/-- remove trailing `'0'` characters. -/
def dropZeros (s : List Char) : List Char :=
  (s.reverse.dropWhile (· = '0')).reverse

/-- `fmtFrac` of time.go: the fractional part of `u` over `10^prec`,
with trailing zeros omitted and a leading `.` only when non-empty. -/
def fracPart (u prec : Nat) : List Char :=
  let t := dropZeros (padZeros (Nat.repr (u % 10 ^ prec)).data prec)
  if t.isEmpty then [] else '.' :: t

/-- `time.Duration.String()` for a duration of `d` nanoseconds:
durations under a second use `ns`/`µs`/`ms` with the respective
precision, others use `h`/`m`/`s`. -/
def durationString (d : Int) : String :=
  let u := d.natAbs
  let core : List Char :=
    if u < 1000000000 then
      if u = 0 then ['0', 's']
      else if u < 1000 then (Nat.repr u).data ++ ['n', 's']
      else if u < 1000000 then (Nat.repr (u / 1000)).data ++ fracPart u 3 ++ ['µ', 's']
      else (Nat.repr (u / 1000000)).data ++ fracPart u 6 ++ ['m', 's']
    else
      let t := u / 1000000000
      let secs := (Nat.repr (t % 60)).data ++ fracPart u 9 ++ ['s']
      let m := t / 60
      if m = 0 then secs
      else
        let mins := (Nat.repr (m % 60)).data ++ 'm' :: secs
        let h := m / 60
        if h = 0 then mins else (Nat.repr h).data ++ 'h' :: mins
  String.mk (if d < 0 then '-' :: core else core)

/-- value of a non-empty all-digit character list. -/
def digitsValGo : List Char → Nat → Option Nat
  | [], acc => some acc
  | c :: cs, acc => if isDig c then digitsValGo cs (acc * 10 + (c.toNat - 48)) else none

/-- value of a non-empty all-digit character list (`none` when empty
or containing a non-digit; base 10, no underscores). -/
def digitsVal : List Char → Option Nat
  | [] => none
  | c :: cs => digitsValGo (c :: cs) 0

/-- `strconv.ParseUint(s, 10, bitSize)`: digits only (no sign), range
`[0, 2^bitSize)`. -/
def goParseUint (s : String) (bitSize : Nat) : Except Err Nat :=
  match digitsVal s.data with
  | none => .error (.badNum s)
  | some n => if n < 2 ^ bitSize then .ok n else .error (.outOfRange s)

/-- `strconv.ParseInt(s, 10, bitSize)`: optional sign, digits, range
`[-2^(bitSize-1), 2^(bitSize-1))`; the digit string itself must also
fit `ParseUint`'s 64-bit range. -/
def goParseInt (s : String) (bitSize : Nat) : Except Err Int :=
  match s.data with
  | [] => .error (.badNum s)
  | c :: rest =>
    let neg := c = '-'
    let ds := if c = '-' || c = '+' then rest else c :: rest
    match digitsVal ds with
    | none => .error (.badNum s)
    | some un =>
      if 2 ^ 64 ≤ un then .error (.outOfRange s)
      else if !neg && 2 ^ (bitSize - 1) ≤ un then .error (.outOfRange s)
      else if neg && 2 ^ (bitSize - 1) < un then .error (.outOfRange s)
      else .ok (if neg then -(un : Int) else (un : Int))

/-- `strconv.ParseBool`. -/
def parseGoBool (s : String) : Except Err Bool :=
  if s = "1" || s = "t" || s = "T" || s = "true" || s = "TRUE" || s = "True" then .ok true
  else if s = "0" || s = "f" || s = "F" || s = "false" || s = "FALSE" || s = "False" then .ok false
  else .error (.badNum s)

/-- leading digit run: its value (`none` when absent), digit count and
the rest. -/
def leadDigits : List Char → Option Nat × Nat × List Char
  | [] => (none, 0, [])
  | c :: cs =>
    if isDig c then
      let p := leadDigits cs
      (some ((c.toNat - 48) * 10 ^ p.2.1 + p.1.getD 0), p.2.1 + 1, p.2.2)
    else (none, 0, c :: cs)

/-- unit part of a duration: characters up to the next digit or `.`. -/
def splitUnit : List Char → List Char × List Char
  | [] => ([], [])
  | c :: cs =>
    if c = '.' || isDig c then ([], c :: cs)
    else
      let p := splitUnit cs
      (c :: p.1, p.2)

/-- the `unitMap` of `time.ParseDuration`, in nanoseconds. -/
def unitVal (u : List Char) : Option Nat :=
  if u = ['n', 's'] then some 1
  else if u = ['u', 's'] then some 1000
  else if u = ['µ', 's'] then some 1000
  else if u = ['μ', 's'] then some 1000
  else if u = ['m', 's'] then some 1000000
  else if u = ['s'] then some 1000000000
  else if u = ['m'] then some 60000000000
  else if u = ['h'] then some 3600000000000
  else none

/-- The component loop of `time.ParseDuration`: repeatedly consume
`[0-9]*(\.[0-9]*)?unit` and accumulate.  Each iteration consumes at
least one character (a digit, a dot, or a non-empty unit), so the
structural `fuel` argument, called with the input length plus one, is
never exhausted.  The fractional contribution is modelled as
`f * unit / 10^digits` with integer (truncating) division, where the
Go source computes it with float64 arithmetic; the nanosecond total is
an unbounded integer (the Go source's int64 overflow checks are not
modelled). -/
def durLoop (s : String) : Nat → List Char → Int → Except Err Int
  | 0, _, _ => .error (.badDur s)
  | _ + 1, [], acc => .ok acc
  | fuel + 1, c :: cs, acc =>
    let p := leadDigits (c :: cs)
    let q : Option Nat × Nat × List Char :=
      match p.2.2 with
      | '.' :: r => leadDigits r
      | r => (none, 0, r)
    if p.1.isNone && q.1.isNone then .error (.badDur s)
    else
      let u := splitUnit q.2.2
      if u.1.isEmpty then .error (.badDur s)
      else
        match unitVal u.1 with
        | none => .error (.badDur s)
        | some unit =>
          let add : Int := (p.1.getD 0) * unit + (q.1.getD 0) * unit / 10 ^ q.2.1
          durLoop s fuel u.2 (acc + add)

/-- `time.ParseDuration`: optional sign, the special case `"0"`, then
one or more number/unit components. -/
def parseGoDuration (s : String) : Except Err Int :=
  match s.data with
  | [] => .error (.badDur s)
  | c :: rest =>
    let neg := c = '-'
    let cs := if c = '-' || c = '+' then rest else c :: rest
    if cs = ['0'] then .ok 0
    else if cs.isEmpty then .error (.badDur s)
    else (durLoop s (cs.length + 1) cs 0).map fun d => if neg then -d else d

/-- zero value allocated by `reflect.New` for a leaf type. -/
def zeroOf : Ty → Value
  | .tstr => .vstr ""
  | .tbool => .vbool false
  | .tint w => .vint w 0
  | .tuint w => .vuint w 0
  | .tdur => .vdur 0
  | .tmap n => .vmapV n

/-- `reflect.Type.String()` of a leaf type, as used in
`ErrUnsupported` messages.  Width `i32` stands for both `int`/`uint`
and `int32`/`uint32`; the model does not distinguish their names. -/
def tyName : Ty → String
  | .tstr => "string"
  | .tbool => "bool"
  | .tint .i8 => "int8"
  | .tint .i16 => "int16"
  | .tint .i32 => "int32"
  | .tint .i64 => "int64"
  | .tuint .i8 => "uint8"
  | .tuint .i16 => "uint16"
  | .tuint .i32 => "uint32"
  | .tuint .i64 => "uint64"
  | .tdur => "time.Duration"
  | .tmap n => n

/-- `getParseFunc` of bind.go restricted to leaf types: the
`typeParsers` entry for `time.Duration` (checked first), then the
`kindParsers` entries; `none` for an unsupported type (maps).  The
`url.URL` entry of `typeParsers` is outside the model. -/
def parseScalar : Ty → Option (String → Except Err Value)
  | .tdur => some fun s => (parseGoDuration s).map .vdur
  | .tstr => some fun s => .ok (.vstr s)
  | .tbool => some fun s => (parseGoBool s).map .vbool
  | .tint w => some fun s => (goParseInt s (bits w)).map (.vint w)
  | .tuint w => some fun s => (goParseUint s (bits w)).map (.vuint w)
  | .tmap _ => none

/-! ### Dump (dump.go) -/

/-- the `dumper` options: `IgnoreZeroValues` and `VarNameFunc`. -/
structure DumpOpts where
  noZero : Bool
  nameFunc : String → String

/-- the default `dumper` built by `Dump`: all options off, names
generated by `VarName`. -/
def defaultOpts : DumpOpts := ⟨false, VarName⟩

mutual
/-- dump.go `isZero`: numbers are zero, booleans false, strings empty,
nil pointers/slices, structs with all fields zero.  A `vtext` value
models a non-zero custom value and a `vmapV` a non-nil map. -/
def isZero : Value → Bool
  | .vstr s => s = ""
  | .vbool b => !b
  | .vint _ n => n = 0
  | .vuint _ n => n = 0
  | .vdur n => n = 0
  | .vtext _ => false
  | .vmapV _ => false
  | .vptrN _ => true
  | .vptrS _ => false
  | .vslice _ _ xs => xs.isNone
  | .vstruct _ fs => isZeroF fs

/-- all fields zero. -/
def isZeroF : Fields → Bool
  | .fnil => true
  | .fcons _ _ v rest => isZero v && isZeroF rest
end

/-- First tier of dump.go `toString`: does the value implement
`encoding.TextMarshaler`?  Only the custom `vtext` type does; a
pointer to it inherits the (value-receiver) implementation. -/
def textMarshal : Value → Option (Except String String)
  | .vtext r => some r
  | .vptrS (.vtext r) => some r
  | _ => none

/-- Second tier of dump.go `toString`: does the value implement
`fmt.Stringer`?  Of the modelled types only `time.Duration` does
(yielding `Duration.String()`); a pointer inherits it. -/
def stringerOf : Value → Option String
  | .vdur n => some (durationString n)
  | .vptrS (.vdur n) => some (durationString n)
  | _ => none

/-- the kind switch of `toString` on an already-dereferenced value:
strings, booleans and the integer kinds; everything else is the
`unknownType` sentinel.  `time.Duration` has kind `Int64`, so here it
formats as a plain integer. -/
def kindFormatCore : Value → Except Err String
  | .vstr s => .ok s
  | .vbool b => .ok (if b then "true" else "false")
  | .vint _ n => .ok (formatInt n)
  | .vuint _ n => .ok (Nat.repr n)
  | .vdur n => .ok (formatInt n)
  | _ => .error .unknownType

/-- the kind switch of `toString`, after the one pointer dereference
(`rv = rv.Elem()`); dereferencing a nil pointer yields an invalid
value, which falls to the `unknownType` default. -/
def kindFormat : Value → Except Err String
  | .vptrS x => kindFormatCore x
  | .vptrN _ => .error .unknownType
  | x => kindFormatCore x

/-- dump.go `toString`: `encoding.TextMarshaler` first (its error is
returned as-is), then `fmt.Stringer`, then the kind switch. -/
def goToString (v : Value) : Except Err String :=
  match textMarshal v with
  | some (.ok s) => .ok s
  | some (.error m) => .error (.marshal m)
  | none =>
    match stringerOf v with
    | some s => .ok s
    | none => kindFormat v

/-- dump.go `dumpSlice`, element part: `toString` of each element in
order; a real error aborts, the `unknownType` sentinel contributes the
empty string. -/
def dumpSliceVals : Elems → Except Err (List String)
  | .enil => .ok []
  | .econs v es =>
    match goToString v with
    | .ok s => (dumpSliceVals es).map (s :: ·)
    | .error e =>
      if e = .unknownType then (dumpSliceVals es).map ("" :: ·) else .error e

/-- `strings.Join(values, ",")`. -/
def joinComma : List String → String
  | [] => ""
  | [s] => s
  | s :: ss => s ++ "," ++ joinComma ss

/-- dump.go `dumpSlice`. -/
def dumpSliceE (es : Elems) : Except Err String :=
  (dumpSliceVals es).map joinComma

/-- `vars[key] = value` on the output mapping, modelled as an
association list: replace an existing entry, else append. -/
def setEntry : List (String × String) → String → String → List (String × String)
  | [], k, v => [(k, v)]
  | (k', v') :: rest, k, v =>
    if k' = k then (k, v) :: rest else (k', v') :: setEntry rest k v

/-- `for k, v := range m { vars[k] = v }`: merge a sub-struct's
mapping into the accumulated mapping, overwriting on collision (the
keys of `m` are distinct, so iteration order is immaterial). -/
def mergeVars (acc : List (String × String)) (m : List (String × String)) :
    List (String × String) :=
  m.foldl (fun a kv => setEntry a kv.1 kv.2) acc

/-- mapping lookup. -/
def getVar : List (String × String) → String → Option String
  | [], _ => none
  | (k', v') :: rest, k => if k' = k then some v' else getVar rest k

/-- The field loop of `dumper.dump`: for each field, skip zero values
under `IgnoreZeroValues`, skip unexported and `env:"-"` fields,
compute the key (tag, or `nameFunc` of the field name), then: a nil
pointer stores `""`; a slice stores `dumpSlice` (skipped when empty
under `IgnoreZeroValues`); otherwise `toString` — a real error aborts,
a converted value is stored, and on the `unknownType` sentinel a
struct (after one dereference) is dumped recursively and merged,
while any other value is silently skipped. -/
def dumpFields (d : DumpOpts) : Fields → List (String × String) →
    Except Err (List (String × String))
  | .fnil, acc => .ok acc
  | .fcons name tag v rest, acc =>
    if d.noZero && isZero v then dumpFields d rest acc
    else if !isExported name || tag = "-" then dumpFields d rest acc
    else
      let key := if tag = "" then d.nameFunc name else tag
      match v with
      | .vptrN _ => dumpFields d rest (setEntry acc key "")
      | .vslice _ _ xs =>
        match dumpSliceE (match xs with | some es => es | none => .enil) with
        | .error e => .error e
        | .ok s =>
          if s = "" && d.noZero then dumpFields d rest acc
          else dumpFields d rest (setEntry acc key s)
      | v =>
        match goToString v with
        | .ok s => dumpFields d rest (setEntry acc key s)
        | .error e =>
          if e = .unknownType then
            match v with
            | .vstruct _ fs =>
              match dumpFields d fs [] with
              | .error e' => .error e'
              | .ok m => dumpFields d rest (mergeVars acc m)
            | .vptrS (.vstruct _ fs) =>
              match dumpFields d fs [] with
              | .error e' => .error e'
              | .ok m => dumpFields d rest (mergeVars acc m)
            | _ => dumpFields d rest acc
          else .error e

/-- `dumper.dump`: dereference one pointer level; a non-struct is
`ErrNotStruct`, a struct's fields are walked. -/
def dumpV (d : DumpOpts) : Value → Except Err (List (String × String))
  | .vstruct _ fs => dumpFields d fs []
  | .vptrS (.vstruct _ fs) => dumpFields d fs []
  | _ => .error .notStruct

/-! ### Bind (bind.go)

A key-value source (the `Env` interface) is modelled as
`String → Option String`, the shape of `MapEnv`; `lookupEnv` is its
`Lookup` method with `os.LookupEnv` semantics. -/

/-- `Env.Lookup`: the value and whether the variable is set; an unset
variable yields `("", false)`. -/
def lookupEnv (env : String → Option String) (key : String) : String × Bool :=
  match env key with
  | some s => (s, true)
  | none => ("", false)

/-- `strings.Split(s, ",")` at the character-list level: splitting the
empty string yields one empty part. -/
def splitCommaL : List Char → List (List Char)
  | [] => [[]]
  | c :: rest =>
    if c = ',' then [] :: splitCommaL rest
    else
      match splitCommaL rest with
      | p :: ps => (c :: p) :: ps
      | [] => [[c]]

/-- `strings.Split(s, ",")`. -/
def splitComma (s : String) : List String :=
  (splitCommaL s.data).map String.mk

/-- The element loop of `setSlice`: parse each part in order with the
element parser, wrapping in a freshly allocated pointer for `[]*T`
fields; the first parse error aborts. -/
def parseParts (pf : String → Except Err Value) (ep : Bool) :
    List String → Except Err Elems
  | [] => .ok .enil
  | p :: ps =>
    match pf p with
    | .error e => .error e
    | .ok v => (parseParts pf ep ps).map (.econs (if ep then .vptrS v else v))

/-- bind.go `setSlice`: split the value on `,`, look up the element
type's parser (`ErrUnsupported` naming the element type if there is
none) and build a new slice.  No modelled element type implements
`encoding.TextUnmarshaler`, so the `unmarshalSlice` branch is not
taken. -/
def setSliceM (ep : Bool) (τ : Ty) (value : String) : Except Err Value :=
  match parseScalar τ with
  | none => .error (.unsupported (tyName τ))
  | some pf =>
    (parseParts pf ep (splitComma value)).map fun es => .vslice ep τ (some es)

/-- `setField` after the pointer has been made non-nil: check
`encoding.TextUnmarshaler` on the pointer (the model's `vtext` stores
the unmarshalled text), then parse by the pointee's type and assign
into the pointee.  Pointees with no parser — maps, named structs,
slices, pointers — give `ErrUnsupported`; the model does not track the
`reflect` names of struct, slice and pointer types. -/
def setPtrInner : Value → String → Except Err Value
  | .vtext _, value => .ok (.vptrS (.vtext (.ok value)))
  | .vstr _, value => .ok (.vptrS (.vstr value))
  | .vbool _, value => (parseGoBool value).map fun b => .vptrS (.vbool b)
  | .vint w _, value => (goParseInt value (bits w)).map fun n => .vptrS (.vint w n)
  | .vuint w _, value => (goParseUint value (bits w)).map fun n => .vptrS (.vuint w n)
  | .vdur _, value => (parseGoDuration value).map fun n => .vptrS (.vdur n)
  | .vmapV n, _ => .error (.unsupported n)
  | .vstruct _ _, _ => .error (.unsupported "struct")
  | .vslice _ τ _, _ => .error (.unsupported ("[]" ++ tyName τ))
  | .vptrS _, _ => .error (.unsupported "ptr")
  | .vptrN _, _ => .error (.unsupported "ptr")

/-- bind.go `setField`: slices go to `setSlice`; a nil pointer is
allocated (`reflect.New` of the pointee type) and then treated as a
non-nil pointer; `encoding.TextUnmarshaler` takes priority; otherwise
the value is parsed by the field type's parser (`typeParsers` before
`kindParsers`) and assigned, and a type with no parser gives
`ErrUnsupported` naming it. -/
def setFieldM : Value → String → Except Err Value
  | .vslice ep τ _, value => setSliceM ep τ value
  | .vptrN τ, value => setPtrInner (zeroOf τ) value
  | .vptrS inner, value => setPtrInner inner value
  | .vtext _, value => .ok (.vtext (.ok value))
  | .vstr _, value => .ok (.vstr value)
  | .vbool _, value => (parseGoBool value).map .vbool
  | .vint w _, value => (goParseInt value (bits w)).map (.vint w)
  | .vuint w _, value => (goParseUint value (bits w)).map (.vuint w)
  | .vdur _, value => (parseGoDuration value).map .vdur
  | .vmapV n, _ => .error (.unsupported n)
  | .vstruct _ _, _ => .error (.unsupported "struct")

/-- The field loop of bind.go `populate`, returning the updated field
list (the Go code mutates in place; on error the fields processed
before the failure keep their new values, but the caller discards
them together with the error).  Per field: unsettable (unexported)
fields are skipped; a non-nil pointer field is passed to `bind`, which
requires a struct pointee; an anonymous-struct field is bound through
its address; otherwise the key is computed (`env` tag, or `VarName` of
the field name), `"-"` skips the field, and the looked-up value is
taken — if it is empty the field is left untouched except that a
struct field is populated recursively, and if it is non-empty the
field is set with `setField`. -/
def populateF (env : String → Option String) : Fields → Except Err Fields
  | .fnil => .ok .fnil
  | .fcons name tag v rest =>
    if !isExported name then (populateF env rest).map (.fcons name tag v)
    else
      match v with
      | .vptrS inner =>
        match inner with
        | .vstruct a fs =>
          match populateF env fs with
          | .error e => .error e
          | .ok fs' =>
            (populateF env rest).map (.fcons name tag (.vptrS (.vstruct a fs')))
        | _ => .error .notStructPtr
      | .vstruct true fs =>
        match populateF env fs with
        | .error e => .error e
        | .ok fs' => (populateF env rest).map (.fcons name tag (.vstruct true fs'))
      | v =>
        let key := if tag = "" then VarName name else tag
        if key = "-" then (populateF env rest).map (.fcons name tag v)
        else
          let value := (lookupEnv env key).1
          if value = "" then
            match v with
            | .vstruct a fs =>
              match populateF env fs with
              | .error e => .error e
              | .ok fs' => (populateF env rest).map (.fcons name tag (.vstruct a fs'))
            | v => (populateF env rest).map (.fcons name tag v)
          else
            match setFieldM v value with
            | .error e => .error e
            | .ok v' => (populateF env rest).map (.fcons name tag v')

/-- bind.go `bind`: the target must be a non-nil pointer to a struct
(`ErrNotStructPtr` otherwise), whose fields are then populated.
Returns the updated target. -/
def bindM (env : String → Option String) : Value → Except Err Value
  | .vptrS (.vstruct a fs) => (populateF env fs).map fun fs' => .vptrS (.vstruct a fs')
  | _ => .error .notStructPtr

/-! ### Claims -/

/-- C3, counterexample.  The claim says the struct populator's
conversion table falls back to float parsing with truncation, so that
`"3.5"` bound into an int field yields `3`.  In bind.go the
`kindParsers` entries call `strconv.ParseInt` directly with no
fallback (the fallback lives in the `Reader.GetInt`/`GetUint`
accessors, not in the table), so binding `"3.5"` into an int field
fails with a parse error instead of storing `3`. -/
theorem claim_C3_counterexample :
    bindM (fun k => if k = "NUM" then some "3.5" else none)
        (.vptrS (.vstruct false (.fcons "Num" "" (.vint .i32 0) .fnil)))
      = .error (.badNum "3.5") ∧
    bindM (fun k => if k = "NUM" then some "3.5" else none)
        (.vptrS (.vstruct false (.fcons "Num" "" (.vint .i32 0) .fnil)))
      ≠ .ok (.vptrS (.vstruct false (.fcons "Num" "" (.vint .i32 3) .fnil))) := by
  refine ⟨rfl, fun hc => ?_⟩
  rw [show bindM (fun k => if k = "NUM" then some "3.5" else none)
        (.vptrS (.vstruct false (.fcons "Num" "" (.vint .i32 0) .fnil)))
      = .error (.badNum "3.5") from rfl] at hc
  exact Except.noConfusion hc

/-- C3, amended.  For every integer width of the populator's
conversion table, parsing is strict `strconv` integer parsing with no
floating-point fallback — `"3.5"` assigned into a signed integer field
of any width fails — and a string starting with `'-'` assigned into an
unsigned field of any width fails with an error rather than
wrapping. -/
theorem claim_C3 :
    (∀ (w : IW) (n : Int), setFieldM (.vint w n) "3.5" = .error (.badNum "3.5")) ∧
    (∀ (w : IW) (n : Nat) (s : String), s.data.head? = some '-' →
      setFieldM (.vuint w n) s = .error (.badNum s)) := by
  constructor
  · intro w n
    cases w <;> rfl
  · intro w n s hs
    have hd : ∃ t, s.data = '-' :: t := by
      cases h : s.data with
      | nil => rw [h] at hs; simp at hs
      | cons c t => rw [h] at hs; simp at hs; exact ⟨t, by rw [hs]⟩
    obtain ⟨t, ht⟩ := hd
    simp only [setFieldM, goParseUint, digitsVal, ht]
    have : isDig '-' = false := by decide
    cases t <;> simp [digitsValGo, this, Except.map]

/-- C3, witness. -/
theorem claim_C3_witness :
    setFieldM (.vint .i32 0) "3.5" = .error (.badNum "3.5") ∧
    setFieldM (.vuint .i32 0) "-3" = .error (.badNum "-3") :=
  ⟨claim_C3.1 .i32 0, claim_C3.2 .i32 0 "-3" rfl⟩

/-- C4.  For a struct with a string field `Name` and a field `Map` of
an unsupported, non-struct type (type name `tn`, e.g.
`map[string]string`), and any source in which the `Map` field's key
maps to a non-empty value, Bind fails with the `ErrUnsupported` error
naming `tn`, while Dump of the same struct succeeds and its result
contains no entry for the `MAP` key. -/
theorem claim_C4 : ∀ (tn s : String) (env : String → Option String),
    env "MAP" = some s → s ≠ "" →
    bindM env (.vptrS (.vstruct false (.fcons "Name" "" (.vstr "")
        (.fcons "Map" "" (.vmapV tn) .fnil))))
      = .error (.unsupported tn) ∧
    dumpV defaultOpts (.vstruct false (.fcons "Name" "" (.vstr "")
        (.fcons "Map" "" (.vmapV tn) .fnil)))
      = .ok [("NAME", "")] ∧
    getVar [("NAME", "")] "MAP" = none := by
  intro tn s env hm hs
  refine ⟨?_, rfl, rfl⟩
  have hv : lookupEnv env "MAP" = (s, true) := by rw [lookupEnv, hm]
  have e1 : isExported "Name" = true := rfl
  have e2 : isExported "Map" = true := rfl
  have k1 : VarName "Name" = "NAME" := rfl
  have k2 : VarName "Map" = "MAP" := rfl
  simp only [bindM, populateF]
  rcases eq_or_ne (lookupEnv env "NAME").1 "" with hn | hn
  · simp [e1, k1, e2, k2, hn, hv, hs, setFieldM, Except.map]
  · simp [e1, k1, e2, k2, hn, hv, hs, setFieldM, Except.map]

/-- C4, witness. -/
theorem claim_C4_witness :
    bindM (fun k => if k = "MAP" then some "blah" else none)
        (.vptrS (.vstruct false (.fcons "Name" "" (.vstr "")
          (.fcons "Map" "" (.vmapV "map[string]string") .fnil))))
      = .error (.unsupported "map[string]string") ∧
    dumpV defaultOpts (.vstruct false (.fcons "Name" "" (.vstr "")
        (.fcons "Map" "" (.vmapV "map[string]string") .fnil)))
      = .ok [("NAME", "")] ∧
    getVar [("NAME", "")] "MAP" = none :=
  claim_C4 "map[string]string" "blah"
    (fun k => if k = "MAP" then some "blah" else none) rfl (by decide)

/-- C6.  Binding a struct whose single string field (with prior value
`prior`) is keyed `VarName name`: a source that maps that key to the
empty string leaves the field at its prior value, and a source with no
entry for the key behaves identically — in both cases the struct is
returned untouched.  The rest of the source (`g`) is arbitrary. -/
theorem claim_C6 : ∀ (name prior : String) (g : String → Option String),
    bindM (fun k => if k = VarName name then some "" else g k)
        (.vptrS (.vstruct false (.fcons name "" (.vstr prior) .fnil)))
      = .ok (.vptrS (.vstruct false (.fcons name "" (.vstr prior) .fnil))) ∧
    bindM (fun k => if k = VarName name then none else g k)
        (.vptrS (.vstruct false (.fcons name "" (.vstr prior) .fnil)))
      = .ok (.vptrS (.vstruct false (.fcons name "" (.vstr prior) .fnil))) := by
  intro name prior g
  constructor <;>
  · simp only [bindM, populateF]
    by_cases hx : isExported name
    · by_cases hdash : VarName name = "-"
      · simp [hx, hdash, Except.map]
      · simp [hx, hdash, lookupEnv, Except.map]
    · simp [hx, Except.map]

/-- C7.  Dump of a struct with a pointer-to-struct field whose pointee
declares fields `Alpha` and `Beta` yields those fields' derived keys
at the top level, with no prefix, merged after the parent's own keys;
and when a top-level field and a nested field derive the same key, the
field visited later in traversal order determines the stored value
(the nested field when it comes second, the top-level field when it
comes second). -/
theorem claim_C7 : ∀ (pv av bv : String),
    dumpV defaultOpts (.vstruct false (.fcons "Parent" "" (.vstr pv)
        (.fcons "Nested" "" (.vptrS (.vstruct false (.fcons "Alpha" "" (.vstr av)
          (.fcons "Beta" "" (.vstr bv) .fnil)))) .fnil)))
      = .ok [("PARENT", pv), ("ALPHA", av), ("BETA", bv)] ∧
    dumpV defaultOpts (.vstruct false (.fcons "Alpha" "" (.vstr pv)
        (.fcons "Nested" "" (.vptrS (.vstruct false
          (.fcons "Alpha" "" (.vstr av) .fnil))) .fnil)))
      = .ok [("ALPHA", av)] ∧
    dumpV defaultOpts (.vstruct false (.fcons "Nested" ""
        (.vptrS (.vstruct false (.fcons "Alpha" "" (.vstr av) .fnil)))
        (.fcons "Alpha" "" (.vstr pv) .fnil)))
      = .ok [("ALPHA", pv)] := by
  intro pv av bv
  exact ⟨rfl, rfl, rfl⟩

/-- list of signed integers as slice elements. -/
def elemsOfInts (w : IW) : List Int → Elems
  | [] => .enil
  | n :: ns => .econs (.vint w n) (elemsOfInts w ns)

theorem dumpSliceVals_ints (w : IW) :
    ∀ ns : List Int, dumpSliceVals (elemsOfInts w ns) = .ok (ns.map formatInt) := by
  intro ns
  induction ns with
  | nil => rfl
  | cons n ns ih => simp [elemsOfInts, dumpSliceVals, goToString, textMarshal,
      stringerOf, kindFormat, kindFormatCore, ih, Except.map]

/-- C8.  Dump formats an integer slice by joining the per-element
representations with `,` (in particular `[1, 2]` yields `"1,2"`); a
nil slice and a non-nil empty slice both dump to the empty string; and
Bind of the value `"1,2"` into an integer-slice field produces exactly
the two-element slice `[1, 2]`. -/
theorem claim_C8 :
    (∀ (w : IW) (ns : List Int),
      dumpSliceE (elemsOfInts w ns) = .ok (joinComma (ns.map formatInt))) ∧
    dumpV defaultOpts (.vstruct false (.fcons "Ints" ""
        (.vslice false (.tint .i32) (some (.econs (.vint .i32 1)
          (.econs (.vint .i32 2) .enil)))) .fnil))
      = .ok [("INTS", "1,2")] ∧
    dumpV defaultOpts (.vstruct false (.fcons "Ints" ""
        (.vslice false (.tint .i32) none) .fnil))
      = .ok [("INTS", "")] ∧
    dumpV defaultOpts (.vstruct false (.fcons "Ints" ""
        (.vslice false (.tint .i32) (some .enil)) .fnil))
      = .ok [("INTS", "")] ∧
    bindM (fun k => if k = "INTS" then some "1,2" else none)
        (.vptrS (.vstruct false (.fcons "Ints" ""
          (.vslice false (.tint .i32) none) .fnil)))
      = .ok (.vptrS (.vstruct false (.fcons "Ints" ""
          (.vslice false (.tint .i32) (some (.econs (.vint .i32 1)
            (.econs (.vint .i32 2) .enil)))) .fnil))) := by
  refine ⟨?_, rfl, rfl, rfl, rfl⟩
  intro w ns
  simp [dumpSliceE, dumpSliceVals_ints, Except.map]

/-- C9.  A settable non-nil pointer field whose pointee is not a
struct (here: a pointer to an integer) makes Bind return
`ErrNotStructPtr` for every key-value source and even for every tag
(the non-nil-pointer branch of `populate` recurses into the field via
`bind` before the tag is consulted, and `bind` requires a struct
pointee). -/
theorem claim_C9 : ∀ (env : String → Option String) (tag : String) (w : IW) (n : Int),
    bindM env (.vptrS (.vstruct false
        (.fcons "Count" tag (.vptrS (.vint w n)) .fnil)))
      = .error .notStructPtr := by
  intro env tag w n
  rfl

/-- C10.  In `toString`, a value implementing `fmt.Stringer` but not
`encoding.TextMarshaler` is formatted by its `String()` method, before
any kind-based formatting is considered.  For `time.Duration` (kind
`Int64`) the two differ: one minute stringifies to `"1m0s"`, while its
kind formatting would be `"60000000000"`. -/
theorem claim_C10 :
    (∀ (v : Value) (s : String), textMarshal v = none → stringerOf v = some s →
      goToString v = .ok s) ∧
    goToString (.vdur 60000000000) = .ok "1m0s" ∧
    kindFormat (.vdur 60000000000) = .ok "60000000000" ∧
    durationString 60000000000 ≠ "60000000000" := by
  refine ⟨?_, rfl, rfl, by decide⟩
  intro v s h1 h2
  simp [goToString, h1, h2]

/-- C10, witness. -/
theorem claim_C10_witness :
    goToString (.vdur 60000000000) = .ok "1m0s" :=
  claim_C10.1 (.vdur 60000000000) "1m0s" rfl rfl


/-- is the argument of Dump a struct or a pointer to a struct (the
shapes `dump` accepts)? -/
def structLike : Value → Bool
  | .vstruct _ _ => true
  | .vptrS (.vstruct _ _) => true
  | _ => false

mutual
/-- does the value contain, in a position the Dump traversal can
reach, a custom marshaller whose `MarshalText` fails? -/
def hasBad : Value → Bool
  | .vtext (.error _) => true
  | .vptrS x => hasBad x
  | .vslice _ _ (some es) => hasBadE es
  | .vstruct _ fs => hasBadF fs
  | _ => false
/-- some field value contains a failing marshaller. -/
def hasBadF : Fields → Bool
  | .fnil => false
  | .fcons _ _ v rest => hasBad v || hasBadF rest
/-- some element contains a failing marshaller. -/
def hasBadE : Elems → Bool
  | .enil => false
  | .econs v es => hasBad v || hasBadE es
end

/-- `toString` fails only with the `unknownType` sentinel or with a
failing custom marshaller's own error. -/
theorem goToString_err : ∀ (v : Value) (e : Err), goToString v = .error e →
    e = .unknownType ∨ ((∃ m, e = .marshal m) ∧ hasBad v = true) := by
  intro v e h
  cases v with
  | vtext r =>
    cases r with
    | ok s => simp [goToString, textMarshal] at h
    | error m =>
      simp [goToString, textMarshal] at h
      exact Or.inr ⟨⟨m, h.symm⟩, rfl⟩
  | vptrS x =>
    cases x with
    | vtext r =>
      cases r with
      | ok s => simp [goToString, textMarshal] at h
      | error m =>
        simp [goToString, textMarshal] at h
        exact Or.inr ⟨⟨m, h.symm⟩, rfl⟩
    | vdur n => simp [goToString, textMarshal, stringerOf] at h
    | vstr s => simp [goToString, textMarshal, stringerOf, kindFormat, kindFormatCore] at h
    | vbool b => simp [goToString, textMarshal, stringerOf, kindFormat, kindFormatCore] at h
    | vint w n => simp [goToString, textMarshal, stringerOf, kindFormat, kindFormatCore] at h
    | vuint w n => simp [goToString, textMarshal, stringerOf, kindFormat, kindFormatCore] at h
    | _ =>
      simp [goToString, textMarshal, stringerOf, kindFormat, kindFormatCore] at h
      exact Or.inl h.symm
  | vdur n => simp [goToString, textMarshal, stringerOf] at h
  | vstr s => simp [goToString, textMarshal, stringerOf, kindFormat, kindFormatCore] at h
  | vbool b => simp [goToString, textMarshal, stringerOf, kindFormat, kindFormatCore] at h
  | vint w n => simp [goToString, textMarshal, stringerOf, kindFormat, kindFormatCore] at h
  | vuint w n => simp [goToString, textMarshal, stringerOf, kindFormat, kindFormatCore] at h
  | _ =>
    simp [goToString, textMarshal, stringerOf, kindFormat, kindFormatCore] at h
    exact Or.inl h.symm



/-- `dumpSlice` fails only with a failing custom marshaller's error,
and only when the slice contains one. -/
theorem dumpSliceVals_err : ∀ (es : Elems) (e : Err), dumpSliceVals es = .error e →
    (∃ m, e = .marshal m) ∧ hasBadE es = true
  | .enil, e => by intro h; simp [dumpSliceVals] at h
  | .econs v es, e => by
    intro h
    simp only [dumpSliceVals] at h
    split at h
    · -- goToString v = .ok s
      cases hds : dumpSliceVals es with
      | ok l => rw [hds] at h; simp [Except.map] at h
      | error e' =>
        rw [hds] at h
        simp only [Except.map] at h
        cases h
        have ih := dumpSliceVals_err es e hds
        exact ⟨ih.1, by simp [hasBadE, ih.2]⟩
    · -- goToString v = .error e''
      rename_i e'' hts
      split at h
      · -- e'' = unknownType: continues
        cases hds : dumpSliceVals es with
        | ok l => rw [hds] at h; simp [Except.map] at h
        | error e' =>
          rw [hds] at h
          simp only [Except.map] at h
          cases h
          have ih := dumpSliceVals_err es e hds
          exact ⟨ih.1, by simp [hasBadE, ih.2]⟩
      · -- real error: e = e''
        rename_i hne
        cases h
        rcases goToString_err v e hts with h1 | h2
        · exact absurd h1 hne
        · exact ⟨h2.1, by simp [hasBadE, h2.2]⟩



/-- The field loop of `dump` fails only with a failing custom
marshaller's error, and only when some field contains one. -/
theorem dumpFields_err : ∀ (d : DumpOpts) (fs : Fields) (acc : List (String × String)) (e : Err),
    dumpFields d fs acc = .error e → (∃ m, e = .marshal m) ∧ hasBadF fs = true
  | d, .fnil, acc, e => by intro h; simp [dumpFields] at h
  | d, .fcons name tag v rest, acc, e => by
    intro h
    have step : ∀ acc', dumpFields d rest acc' = .error e →
        (∃ m, e = .marshal m) ∧ hasBadF (.fcons name tag v rest) = true := by
      intro acc' h'
      have ih := dumpFields_err d rest acc' e h'
      exact ⟨ih.1, by simp [hasBadF, ih.2]⟩
    cases v with
    | vptrN τ =>
      simp only [dumpFields] at h
      split at h
      · exact step _ h
      · split at h
        · exact step _ h
        · exact step _ h
    | vslice ep τ xs =>
      simp only [dumpFields] at h
      split at h
      · exact step _ h
      · split at h
        · exact step _ h
        · split at h
          · -- dumpSliceE error
            rename_i e2 hds
            cases h
            cases xs with
            | none => simp [dumpSliceE, dumpSliceVals, Except.map] at hds
            | some es =>
              simp only [dumpSliceE] at hds
              have hsv : dumpSliceVals es = .error e := by
                cases hx : dumpSliceVals es with
                | ok l => rw [hx] at hds; simp [Except.map] at hds
                | error e3 =>
                  rw [hx] at hds
                  simp only [Except.map] at hds
                  cases hds
                  rfl
              have ih := dumpSliceVals_err es e hsv
              exact ⟨ih.1, by simp [hasBadF, hasBad, ih.2]⟩
          · -- dumpSliceE ok
            split at h
            · exact step _ h
            · exact step _ h
    | vtext r =>
      cases r with
      | ok s =>
        simp only [dumpFields, goToString, textMarshal] at h
        split at h
        · exact step _ h
        · split at h
          · exact step _ h
          · exact step _ h
      | error m =>
        simp only [dumpFields, goToString, textMarshal] at h
        split at h
        · exact step _ h
        · split at h
          · exact step _ h
          · simp only [reduceCtorEq, if_false] at h
            cases h
            exact ⟨⟨m, rfl⟩, by simp [hasBadF, hasBad]⟩
    | vstr s =>
      simp only [dumpFields, goToString, textMarshal, stringerOf, kindFormat,
        kindFormatCore, reduceCtorEq, if_true, if_false] at h
      split at h
      · exact step _ h
      · split at h
        · exact step _ h
        · exact step _ h
    | vbool b =>
      simp only [dumpFields, goToString, textMarshal, stringerOf, kindFormat,
        kindFormatCore, reduceCtorEq, if_true, if_false] at h
      split at h
      · exact step _ h
      · split at h
        · exact step _ h
        · exact step _ h
    | vint w n =>
      simp only [dumpFields, goToString, textMarshal, stringerOf, kindFormat,
        kindFormatCore, reduceCtorEq, if_true, if_false] at h
      split at h
      · exact step _ h
      · split at h
        · exact step _ h
        · exact step _ h
    | vuint w n =>
      simp only [dumpFields, goToString, textMarshal, stringerOf, kindFormat,
        kindFormatCore, reduceCtorEq, if_true, if_false] at h
      split at h
      · exact step _ h
      · split at h
        · exact step _ h
        · exact step _ h
    | vdur n =>
      simp only [dumpFields, goToString, textMarshal, stringerOf] at h
      split at h
      · exact step _ h
      · split at h
        · exact step _ h
        · exact step _ h
    | vmapV tn =>
      simp only [dumpFields, goToString, textMarshal, stringerOf, kindFormat,
        kindFormatCore, reduceCtorEq, if_true, if_false] at h
      split at h
      · exact step _ h
      · split at h
        · exact step _ h
        · exact step _ h
    | vstruct a fs' =>
      simp only [dumpFields, goToString, textMarshal, stringerOf, kindFormat,
        kindFormatCore, reduceCtorEq, if_true, if_false] at h
      split at h
      · exact step _ h
      · split at h
        · exact step _ h
        · split at h
          · -- nested dump error
            rename_i e2 hdf
            cases h
            have ih := dumpFields_err d fs' [] e hdf
            exact ⟨ih.1, by simp [hasBadF, hasBad, ih.2]⟩
          · exact step _ h
    | vptrS x =>
      cases x with
      | vtext r =>
        cases r with
        | ok s =>
          simp only [dumpFields, goToString, textMarshal] at h
          split at h
          · exact step _ h
          · split at h
            · exact step _ h
            · exact step _ h
        | error m =>
          simp only [dumpFields, goToString, textMarshal] at h
          split at h
          · exact step _ h
          · split at h
            · exact step _ h
            · simp only [reduceCtorEq, if_false] at h
              cases h
              exact ⟨⟨m, rfl⟩, by simp [hasBadF, hasBad]⟩
      | vdur n =>
        simp only [dumpFields, goToString, textMarshal, stringerOf] at h
        split at h
        · exact step _ h
        · split at h
          · exact step _ h
          · exact step _ h
      | vstr s =>
        simp only [dumpFields, goToString, textMarshal, stringerOf, kindFormat,
          kindFormatCore, reduceCtorEq, if_true, if_false] at h
        split at h
        · exact step _ h
        · split at h
          · exact step _ h
          · exact step _ h
      | vbool b =>
        simp only [dumpFields, goToString, textMarshal, stringerOf, kindFormat,
          kindFormatCore, reduceCtorEq, if_true, if_false] at h
        split at h
        · exact step _ h
        · split at h
          · exact step _ h
          · exact step _ h
      | vint w n =>
        simp only [dumpFields, goToString, textMarshal, stringerOf, kindFormat,
          kindFormatCore, reduceCtorEq, if_true, if_false] at h
        split at h
        · exact step _ h
        · split at h
          · exact step _ h
          · exact step _ h
      | vuint w n =>
        simp only [dumpFields, goToString, textMarshal, stringerOf, kindFormat,
          kindFormatCore, reduceCtorEq, if_true, if_false] at h
        split at h
        · exact step _ h
        · split at h
          · exact step _ h
          · exact step _ h
      | vstruct a fs' =>
        simp only [dumpFields, goToString, textMarshal, stringerOf, kindFormat,
          kindFormatCore, reduceCtorEq, if_true, if_false] at h
        split at h
        · exact step _ h
        · split at h
          · exact step _ h
          · split at h
            · rename_i e2 hdf
              cases h
              have ih := dumpFields_err d fs' [] e hdf
              exact ⟨ih.1, by simp [hasBadF, hasBad, ih.2]⟩
            · exact step _ h
      | vmapV tn =>
        simp only [dumpFields, goToString, textMarshal, stringerOf, kindFormat,
          kindFormatCore, reduceCtorEq, if_true, if_false] at h
        split at h
        · exact step _ h
        · split at h
          · exact step _ h
          · exact step _ h
      | vptrN τ =>
        simp only [dumpFields, goToString, textMarshal, stringerOf, kindFormat,
          kindFormatCore, reduceCtorEq, if_true, if_false] at h
        split at h
        · exact step _ h
        · split at h
          · exact step _ h
          · exact step _ h
      | vptrS y =>
        simp only [dumpFields, goToString, textMarshal, stringerOf, kindFormat,
          kindFormatCore, reduceCtorEq, if_true, if_false] at h
        split at h
        · exact step _ h
        · split at h
          · exact step _ h
          · exact step _ h
      | vslice ep τ xs =>
        simp only [dumpFields, goToString, textMarshal, stringerOf, kindFormat,
          kindFormatCore, reduceCtorEq, if_true, if_false] at h
        split at h
        · exact step _ h
        · split at h
          · exact step _ h
          · exact step _ h



/-- C5.  Dump returns an error only if its argument is not a struct or
pointer to a struct (then `ErrNotStruct`), or if a field's own custom
`MarshalText` fails (then that error); conversely, on a
struct(-pointer) containing no failing marshaller — including structs
with unconvertible leaf fields — Dump returns a mapping without
error. -/
theorem claim_C5 :
    (∀ (d : DumpOpts) (v : Value) (e : Err),
      dumpV d v = .error e →
      (e = .notStruct ∧ structLike v = false) ∨
        ((∃ m, e = .marshal m) ∧ hasBad v = true)) ∧
    (∀ (d : DumpOpts) (v : Value),
      structLike v = true → hasBad v = false → ∃ m, dumpV d v = .ok m) := by
  constructor
  · intro d v e h
    cases v with
    | vstruct a fs =>
      have ih := dumpFields_err d fs [] e h
      exact Or.inr ⟨ih.1, by simpa [hasBad] using ih.2⟩
    | vptrS x =>
      cases x with
      | vstruct a fs =>
        have ih := dumpFields_err d fs [] e h
        exact Or.inr ⟨ih.1, by simpa [hasBad] using ih.2⟩
      | _ =>
        have h' : (Except.error Err.notStruct : Except Err (List (String × String)))
            = .error e := h
        cases h'
        exact Or.inl ⟨rfl, rfl⟩
    | _ =>
      have h' : (Except.error Err.notStruct : Except Err (List (String × String)))
          = .error e := h
      cases h'
      exact Or.inl ⟨rfl, rfl⟩
  · intro d v hs hb
    cases v with
    | vstruct a fs =>
      cases hres : dumpFields d fs [] with
      | ok m => exact ⟨m, hres⟩
      | error e =>
        have ih := dumpFields_err d fs [] e hres
        have : hasBadF fs = false := hb
        rw [ih.2] at this
        cases this
    | vptrS x =>
      cases x with
      | vstruct a fs =>
        cases hres : dumpFields d fs [] with
        | ok m => exact ⟨m, hres⟩
        | error e =>
          have ih := dumpFields_err d fs [] e hres
          have : hasBadF fs = false := hb
          rw [ih.2] at this
          cases this
      | _ => simp [structLike] at hs
    | _ => simp [structLike] at hs

/-- C5, witness: a non-struct fails with `ErrNotStruct`; a struct
whose field's marshaller fails returns that error; a struct with an
unsupported map leaf dumps without error. -/
theorem claim_C5_witness :
    ((Err.notStruct = Err.notStruct ∧ structLike (.vstr "x") = false) ∨
      ((∃ m, Err.notStruct = Err.marshal m) ∧ hasBad (.vstr "x") = true)) ∧
    ((Err.marshal "oops" = Err.notStruct ∧
        structLike (.vstruct false (.fcons "Oops" "" (.vtext (.error "oops")) .fnil)) = false) ∨
      ((∃ m, Err.marshal "oops" = Err.marshal m) ∧
        hasBad (.vstruct false (.fcons "Oops" "" (.vtext (.error "oops")) .fnil)) = true)) ∧
    (∃ m, dumpV defaultOpts
        (.vstruct false (.fcons "Map" "" (.vmapV "map[string]string") .fnil)) = .ok m) :=
  ⟨claim_C5.1 defaultOpts (.vstr "x") .notStruct rfl,
   claim_C5.1 defaultOpts
     (.vstruct false (.fcons "Oops" "" (.vtext (.error "oops")) .fnil)) (.marshal "oops") rfl,
   claim_C5.2 defaultOpts
     (.vstruct false (.fcons "Map" "" (.vmapV "map[string]string") .fnil)) rfl rfl⟩


end GoEnv
